import Mathlib

/-!
Shallow embedding of `src/dicom-mod/main.py` (PavelDusek/DICOM-mod).

The program batch-edits DICOM files: for each file in an input directory it
decodes the pixel array (a numpy array of shape `[H, W, 3]` for a single
frame or `[F, H, W, 3]` for video), applies the enabled transforms
(`transfer`, `transfer2`, `fill`, `fill2`, in that order), optionally shows
the image and waits for user input, and, when an output directory is
configured, writes a jpg export and/or the re-encoded DICOM file.

Pixel buffers are embedded as total functions from coordinates to sample
values (`Nat`); numpy basic slicing with non-negative bounds is embedded by
its clamping semantics (`a[l:u]` addresses indices `i` with
`min l n ≤ i < min u n`), and slice assignment by numpy's broadcasting
rule (a source extent must equal the destination extent or be 1, otherwise
a `ValueError` is raised, embedded as `none`).  Since numpy 1.13, slice
assignment whose right-hand side is an overlapping view of the same array
behaves as if the source were copied to a temporary first; the embedding
therefore reads all source samples from the pre-assignment buffer.
-/

namespace DicomMod

/-- A rectangle `x,y,width,height` as parsed from the `--rect`/`--source`
command line strings (line 207 / 225 of `main.py`); `x,y` is the top-left
corner. -/
structure Rect where
  x : Nat
  y : Nat
  width : Nat
  height : Nat
deriving DecidableEq

/-- A destination origin `x,y` as parsed from `--destination` (line 226). -/
structure Dest where
  x : Nat
  y : Nat
deriving DecidableEq

/-- An `r,g,b` color as parsed from `--color` (line 208). -/
structure Color where
  r : Nat
  g : Nat
  b : Nat
deriving DecidableEq

/-- The sample the color assigns to channel `ch`, i.e. the broadcast of the
value `[r, g, b]` over the last (channel) axis of a slice. -/
def Color.chan (c : Color) (ch : Fin 3) : Nat :=
  match ch with
  | 0 => c.r
  | 1 => c.g
  | 2 => c.b

/-- Membership of index `i` in the numpy slice `l:u` of an axis of length
`n` (non-negative bounds): `a[l:u]` addresses exactly the indices `i` with
`min l n ≤ i < min u n`, which for any `i` is equivalent to
`l ≤ i ∧ i < u ∧ i < n`. -/
def inSlice (l u n i : Nat) : Prop := l ≤ i ∧ i < u ∧ i < n

instance (l u n i : Nat) : Decidable (inSlice l u n i) := by
  unfold inSlice; infer_instance

/-- The number of indices the numpy slice `l:u` addresses on an axis of
length `n`: the shape of `a[l:u]` along that axis. -/
def sliceLen (l u n : Nat) : Nat := min u n - min l n

/-- A single-frame pixel buffer of shape `[H, W, 3]`: the sample at row
`i`, column `j`, channel `ch` is `pix i j ch`.  (Samples at `i ≥ H` or
`j ≥ W` do not exist in the numpy array; the embedding keeps the function
total and every operation leaves such phantom samples unchanged.) -/
@[ext]
structure Img3 where
  H : Nat
  W : Nat
  pix : Nat → Nat → Fin 3 → Nat

/-- A multi-frame (video) pixel buffer of shape `[F, H, W, 3]`. -/
@[ext]
structure Img4 where
  F : Nat
  H : Nat
  W : Nat
  pix : Nat → Nat → Nat → Fin 3 → Nat

/-- Line 218 of `main.py`, `array[y:y+height, x:x+width] = [r, g, b]`, on a
single-frame `[H, W, 3]` buffer: the two slices address the row and column
axes and the value `[r, g, b]` broadcasts over the channel axis. -/
def fill3 (img : Img3) (rect : Rect) (c : Color) : Img3 :=
  { img with
    pix := fun i j ch =>
      if inSlice rect.y (rect.y + rect.height) img.H i ∧
         inSlice rect.x (rect.x + rect.width) img.W j then
        c.chan ch
      else
        img.pix i j ch }

/-- Line 218 of `main.py` on a multi-frame `[F, H, W, 3]` buffer:
`fill_image` has no frame-axis branch, so `array[y:y+height, x:x+width]`
addresses the FRAME axis with `y:y+height` and the ROW axis with
`x:x+width`, and the value `[r, g, b]` broadcasts over the remaining column
and channel axes — every column of the addressed frames and rows is
overwritten, and frames outside `y:y+height` are untouched. -/
def fill4 (img : Img4) (rect : Rect) (c : Color) : Img4 :=
  { img with
    pix := fun f i j ch =>
      if inSlice rect.y (rect.y + rect.height) img.F f ∧
         inSlice rect.x (rect.x + rect.width) img.H i then
        c.chan ch
      else
        img.pix f i j ch }

/-- Lines 244–246 of `main.py`,
`array[dy:dy+h, dx:dx+w] = array[sy:sy+h, sx:sx+w]`, on a single-frame
buffer.  Both slices clamp to the array bounds; the assignment raises
`ValueError` (embedded as `none`) unless each source extent equals the
destination extent or is 1 (numpy broadcasting).  Overlapping views are
copied through a temporary (numpy ≥ 1.13), so every destination sample
reads the pre-assignment buffer. -/
def transfer3 (img : Img3) (dest : Dest) (src : Rect) : Option Img3 :=
  if (sliceLen src.y (src.y + src.height) img.H
        = sliceLen dest.y (dest.y + src.height) img.H ∨
      sliceLen src.y (src.y + src.height) img.H = 1) ∧
     (sliceLen src.x (src.x + src.width) img.W
        = sliceLen dest.x (dest.x + src.width) img.W ∨
      sliceLen src.x (src.x + src.width) img.W = 1) then
    some { img with
      pix := fun i j ch =>
        if inSlice dest.y (dest.y + src.height) img.H i ∧
           inSlice dest.x (dest.x + src.width) img.W j then
          img.pix
            (min src.y img.H +
              (if sliceLen src.y (src.y + src.height) img.H = 1 then 0
               else i - min dest.y img.H))
            (min src.x img.W +
              (if sliceLen src.x (src.x + src.width) img.W = 1 then 0
               else j - min dest.x img.W))
            ch
        else
          img.pix i j ch }
  else
    none

/-- Lines 238–241 of `main.py`: the multi-frame branch of `transfer_image`
performs the same two-axis slice assignment independently on every frame
(`for frame in range(array.shape[0])`); the per-frame shapes are identical,
so the broadcast check is frame-independent. -/
def transfer4 (img : Img4) (dest : Dest) (src : Rect) : Option Img4 :=
  if (sliceLen src.y (src.y + src.height) img.H
        = sliceLen dest.y (dest.y + src.height) img.H ∨
      sliceLen src.y (src.y + src.height) img.H = 1) ∧
     (sliceLen src.x (src.x + src.width) img.W
        = sliceLen dest.x (dest.x + src.width) img.W ∨
      sliceLen src.x (src.x + src.width) img.W = 1) then
    some { img with
      pix := fun f i j ch =>
        if inSlice dest.y (dest.y + src.height) img.H i ∧
           inSlice dest.x (dest.x + src.width) img.W j then
          img.pix f
            (min src.y img.H +
              (if sliceLen src.y (src.y + src.height) img.H = 1 then 0
               else i - min dest.y img.H))
            (min src.x img.W +
              (if sliceLen src.x (src.x + src.width) img.W = 1 then 0
               else j - min dest.x img.W))
            ch
        else
          img.pix f i j ch }
  else
    none

/-- A decoded pixel array: `len(array.shape) == 3` (single frame) or
`len(array.shape) == 4` (video), the two shapes `main.py` dispatches on. -/
inductive PixArray where
  | single : Img3 → PixArray
  | multi : Img4 → PixArray

/-- `fill_image` (lines 204–219 of `main.py`) as it acts on either buffer
shape.  The function itself never branches on the shape: the same slice
assignment is executed, with rank-dependent meaning (`fill3` / `fill4`). -/
def fill_image (a : PixArray) (rect : Rect) (c : Color) : PixArray :=
  match a with
  | .single i => .single (fill3 i rect c)
  | .multi i => .multi (fill4 i rect c)

/-- `transfer_image` (lines 222–247 of `main.py`): dispatches on
`len(array.shape) == 4` and copies the source rectangle to the destination
origin, per frame for video data. -/
def transfer_image (a : PixArray) (dest : Dest) (src : Rect) :
    Option PixArray :=
  match a with
  | .single i => (transfer3 i dest src).map .single
  | .multi i => (transfer4 i dest src).map .multi

/-- The pixels addressed by rectangle `r`: rows `y ≤ i < y+height`,
columns `x ≤ j < x+width`. -/
def Rect.mem (r : Rect) (i j : Nat) : Prop :=
  r.y ≤ i ∧ i < r.y + r.height ∧ r.x ≤ j ∧ j < r.x + r.width

instance (r : Rect) (i j : Nat) : Decidable (r.mem i j) := by
  unfold Rect.mem; infer_instance

/-- The destination rectangle of a transfer: destination origin `d` with
the width and height inherited from the source rectangle `s`. -/
def Dest.rectOf (d : Dest) (s : Rect) : Rect :=
  ⟨d.x, d.y, s.width, s.height⟩

/-- The parsed command-line configuration (`args`, lines 15–144 of
`main.py`); flag order on the command line is immaterial, `argparse`
produces this one record.  String-valued rectangle/color/origin arguments
are embedded already parsed into their numeric forms. -/
structure Config where
  input : Bool
  output : Bool
  showImages : Bool
  jpg : Bool
  info : Bool
  institution : Bool
  transfer : Bool
  source : Rect
  destination : Dest
  transfer2 : Bool
  source2 : Rect
  destination2 : Dest
  fill : Bool
  rect : Rect
  color : Color
  fill2 : Bool
  rect2 : Rect
  color2 : Color

/-- ASCII whitespace removed by Python `str.strip()`. -/
def pyIsSpace (c : Char) : Bool :=
  c = ' ' || c = '\t' || c = '\n' || c = '\r' || c = Char.ofNat 11 ||
    c = Char.ofNat 12

/-- Python `str.strip()` on an ASCII string: drop whitespace from both
ends. -/
def pyStrip (s : List Char) : List Char :=
  ((s.dropWhile pyIsSpace).reverse.dropWhile pyIsSpace).reverse

/-- Python `str.lower()` on an ASCII string. -/
def pyLower (s : List Char) : List Char :=
  s.map fun c => if 'A' ≤ c ∧ c ≤ 'Z' then Char.ofNat (c.toNat + 32) else c

/-- The quit tokens of line 296 of `main.py`:
`["q", "quit", "e", "exit"]`. -/
def quitTokens : List (List Char) :=
  [['q'], ['q', 'u', 'i', 't'], ['e'], ['e', 'x', 'i', 't']]

/-- Line 296 of `main.py`: `command.strip().lower() in ["q", "quit", "e",
"exit"]`. -/
def isQuit (s : List Char) : Bool :=
  quitTokens.contains (pyLower (pyStrip s))

/-- One file of the input directory, as the driver observes it: `pixels`
is the decoded pixel array, or `none` when the dataset has no pixel data
(`dataset.pixel_array` raises `AttributeError`, which the `debug_verbose`
wrapper on `get_image` catches, returning `None`); `userInput` is what the
user would type at the `Proceed?` prompt if this file is displayed. -/
structure DFile where
  name : Nat
  pixels : Option PixArray
  userInput : List Char

/-- An output produced for one input file: the jpg export
(`<out_dir>/<name>.jpg`, line 308) or the DICOM container write
(`<out_dir>/<name>`, line 322). -/
inductive WriteEvent where
  | jpgWrite : Nat → WriteEvent
  | dicomWrite : Nat → WriteEvent
deriving DecidableEq

/-- Lines 280–291 of `main.py`: the per-file edit pipeline.  The enabled
transforms run in the fixed textual order `transfer`, `transfer2`, `fill`,
`fill2`; an uncaught `ValueError` from a transfer (broadcast failure)
aborts the whole program, embedded as `none`. -/
def applyPlan (cfg : Config) (img : PixArray) : Option PixArray :=
  (if cfg.transfer then transfer_image img cfg.destination cfg.source
   else some img).bind fun i1 =>
    (if cfg.transfer2 then transfer_image i1 cfg.destination2 cfg.source2
     else some i1).bind fun i2 =>
      some (if cfg.fill2 then
              fill_image (if cfg.fill then fill_image i2 cfg.rect cfg.color
                          else i2) cfg.rect2 cfg.color2
            else if cfg.fill then fill_image i2 cfg.rect cfg.color else i2)

/-- The writes lines 302–322 of `main.py` perform for one file: the jpg
export requires both `--jpg` and an output directory, the DICOM write
requires an output directory. -/
def fileWrites (cfg : Config) (f : DFile) : List WriteEvent :=
  (if cfg.jpg ∧ cfg.output then [WriteEvent.jpgWrite f.name] else []) ++
    (if cfg.output then [WriteEvent.dicomWrite f.name] else [])

/-- The `for path in in_dir.iterdir()` loop of `main` (lines 269–323):
returns the writes performed, paired with `some b` for a `return b`, or
`none` when an uncaught exception from a transform aborts the program.
A file with no pixel data is skipped (lines 274–276); after the
transforms, if `--show` is set and the user's reply is a quit token, `main`
returns `False` before writing anything for this file (lines 293–297);
otherwise the file's writes happen and the loop continues, falling through
to `return True` (line 323). -/
def processFiles (cfg : Config) : List DFile → List WriteEvent × Option Bool
  | [] => ([], some true)
  | f :: rest =>
    match f.pixels with
    | none => processFiles cfg rest
    | some img =>
      match applyPlan cfg img with
      | none => ([], none)
      | some _ =>
        if cfg.showImages ∧ isQuit f.userInput then ([], some false)
        else
          let r := processFiles cfg rest
          (fileWrites cfg f ++ r.1, r.2)

/-- `main` (lines 256–323 of `main.py`): without an input directory it
reports and returns `False` before touching any file; an absent output
directory is only reported, processing continues. -/
def main (cfg : Config) (files : List DFile) :
    List WriteEvent × Option Bool :=
  if cfg.input then processFiles cfg files else ([], some false)

/-- The four edit rules of the plan, named by their flags. -/
inductive RuleTag where
  | transferRule
  | transfer2Rule
  | fillRule
  | fill2Rule
deriving DecidableEq

/-- The fixed order in which `main` (lines 280–291) considers the rules. -/
def ruleOrder : List RuleTag :=
  [.transferRule, .transfer2Rule, .fillRule, .fill2Rule]

/-- Whether a rule's flag is enabled in the configuration. -/
def ruleEnabled (cfg : Config) : RuleTag → Bool
  | .transferRule => cfg.transfer
  | .transfer2Rule => cfg.transfer2
  | .fillRule => cfg.fill
  | .fill2Rule => cfg.fill2

/-- Application of one named rule with its configured parameters. -/
def applyRule (cfg : Config) (img : PixArray) : RuleTag → Option PixArray
  | .transferRule => transfer_image img cfg.destination cfg.source
  | .transfer2Rule => transfer_image img cfg.destination2 cfg.source2
  | .fillRule => some (fill_image img cfg.rect cfg.color)
  | .fill2Rule => some (fill_image img cfg.rect2 cfg.color2)

/-- The fill rectangle lies within the spatial bounds of the buffer. -/
def fillInBounds (a : PixArray) (r : Rect) : Prop :=
  match a with
  | .single i => r.x + r.width ≤ i.W ∧ r.y + r.height ≤ i.H
  | .multi i => r.x + r.width ≤ i.W ∧ r.y + r.height ≤ i.H

/-- The source rectangle and the destination rectangle (of the same size)
intersect in at least one pixel position. -/
def overlaps (d : Dest) (s : Rect) : Prop :=
  d.x < s.x + s.width ∧ s.x < d.x + s.width ∧
    d.y < s.y + s.height ∧ s.y < d.y + s.height

instance (d : Dest) (s : Rect) : Decidable (overlaps d s) := by
  unfold overlaps; infer_instance

/-!  ## Theorems -/

/-- When both rectangles are in bounds, `transfer3` succeeds and equals the
snapshot-then-write copy: destination pixels take the pre-transfer source
samples, everything else is untouched. -/
theorem transfer3_in_bounds_eq (img : Img3) (d : Dest) (s : Rect)
    (hsx : s.x + s.width ≤ img.W) (hsy : s.y + s.height ≤ img.H)
    (hdx : d.x + s.width ≤ img.W) (hdy : d.y + s.height ≤ img.H) :
    transfer3 img d s = some
      { img with
        pix := fun i j ch =>
          if (d.rectOf s).mem i j then
            img.pix (s.y + (i - d.y)) (s.x + (j - d.x)) ch
          else
            img.pix i j ch } := by
  have hys : min s.y img.H = s.y := Nat.min_eq_left (by omega)
  have hyd : min d.y img.H = d.y := Nat.min_eq_left (by omega)
  have hxs : min s.x img.W = s.x := Nat.min_eq_left (by omega)
  have hxd : min d.x img.W = d.x := Nat.min_eq_left (by omega)
  have hls : sliceLen s.y (s.y + s.height) img.H = s.height := by
    unfold sliceLen
    rw [hys, Nat.min_eq_left (show s.y + s.height ≤ img.H by omega)]
    omega
  have hld : sliceLen d.y (d.y + s.height) img.H = s.height := by
    unfold sliceLen
    rw [hyd, Nat.min_eq_left (show d.y + s.height ≤ img.H by omega)]
    omega
  have hws : sliceLen s.x (s.x + s.width) img.W = s.width := by
    unfold sliceLen
    rw [hxs, Nat.min_eq_left (show s.x + s.width ≤ img.W by omega)]
    omega
  have hwd : sliceLen d.x (d.x + s.width) img.W = s.width := by
    unfold sliceLen
    rw [hxd, Nat.min_eq_left (show d.x + s.width ≤ img.W by omega)]
    omega
  have hcond : (sliceLen s.y (s.y + s.height) img.H
        = sliceLen d.y (d.y + s.height) img.H ∨
      sliceLen s.y (s.y + s.height) img.H = 1) ∧
     (sliceLen s.x (s.x + s.width) img.W
        = sliceLen d.x (d.x + s.width) img.W ∨
      sliceLen s.x (s.x + s.width) img.W = 1) :=
    ⟨Or.inl (hls.trans hld.symm), Or.inl (hws.trans hwd.symm)⟩
  rw [transfer3, if_pos hcond]
  simp only [hls, hws, hys, hyd, hxs, hxd]
  congr 1
  refine Img3.ext rfl rfl ?_
  funext i j ch
  dsimp only
  by_cases hm : (d.rectOf s).mem i j
  · have hm' := hm
    simp only [Rect.mem, Dest.rectOf] at hm'
    have hcond2 : inSlice d.y (d.y + s.height) img.H i ∧
        inSlice d.x (d.x + s.width) img.W j := by
      unfold inSlice; omega
    rw [if_pos hcond2, if_pos hm]
    have e1 : (if s.height = 1 then 0 else i - d.y) = i - d.y := by
      split_ifs with h1
      · omega
      · rfl
    have e2 : (if s.width = 1 then 0 else j - d.x) = j - d.x := by
      split_ifs with h1
      · omega
      · rfl
    rw [e1, e2]
  · have hm' := hm
    simp only [Rect.mem, Dest.rectOf] at hm'
    have hcond2 : ¬ (inSlice d.y (d.y + s.height) img.H i ∧
        inSlice d.x (d.x + s.width) img.W j) := by
      unfold inSlice; omega
    rw [if_neg hcond2, if_neg hm]

/-- Multi-frame analogue of `transfer3_in_bounds_eq`: `transfer4` performs
the same in-bounds copy identically on every frame. -/
theorem transfer4_in_bounds_eq (img : Img4) (d : Dest) (s : Rect)
    (hsx : s.x + s.width ≤ img.W) (hsy : s.y + s.height ≤ img.H)
    (hdx : d.x + s.width ≤ img.W) (hdy : d.y + s.height ≤ img.H) :
    transfer4 img d s = some
      { img with
        pix := fun f i j ch =>
          if (d.rectOf s).mem i j then
            img.pix f (s.y + (i - d.y)) (s.x + (j - d.x)) ch
          else
            img.pix f i j ch } := by
  have hys : min s.y img.H = s.y := Nat.min_eq_left (by omega)
  have hyd : min d.y img.H = d.y := Nat.min_eq_left (by omega)
  have hxs : min s.x img.W = s.x := Nat.min_eq_left (by omega)
  have hxd : min d.x img.W = d.x := Nat.min_eq_left (by omega)
  have hls : sliceLen s.y (s.y + s.height) img.H = s.height := by
    unfold sliceLen
    rw [hys, Nat.min_eq_left (show s.y + s.height ≤ img.H by omega)]
    omega
  have hld : sliceLen d.y (d.y + s.height) img.H = s.height := by
    unfold sliceLen
    rw [hyd, Nat.min_eq_left (show d.y + s.height ≤ img.H by omega)]
    omega
  have hws : sliceLen s.x (s.x + s.width) img.W = s.width := by
    unfold sliceLen
    rw [hxs, Nat.min_eq_left (show s.x + s.width ≤ img.W by omega)]
    omega
  have hwd : sliceLen d.x (d.x + s.width) img.W = s.width := by
    unfold sliceLen
    rw [hxd, Nat.min_eq_left (show d.x + s.width ≤ img.W by omega)]
    omega
  have hcond : (sliceLen s.y (s.y + s.height) img.H
        = sliceLen d.y (d.y + s.height) img.H ∨
      sliceLen s.y (s.y + s.height) img.H = 1) ∧
     (sliceLen s.x (s.x + s.width) img.W
        = sliceLen d.x (d.x + s.width) img.W ∨
      sliceLen s.x (s.x + s.width) img.W = 1) :=
    ⟨Or.inl (hls.trans hld.symm), Or.inl (hws.trans hwd.symm)⟩
  rw [transfer4, if_pos hcond]
  simp only [hls, hws, hys, hyd, hxs, hxd]
  congr 1
  refine Img4.ext rfl rfl rfl ?_
  funext f i j ch
  dsimp only
  by_cases hm : (d.rectOf s).mem i j
  · have hm' := hm
    simp only [Rect.mem, Dest.rectOf] at hm'
    have hcond2 : inSlice d.y (d.y + s.height) img.H i ∧
        inSlice d.x (d.x + s.width) img.W j := by
      unfold inSlice; omega
    rw [if_pos hcond2, if_pos hm]
    have e1 : (if s.height = 1 then 0 else i - d.y) = i - d.y := by
      split_ifs with h1
      · omega
      · rfl
    have e2 : (if s.width = 1 then 0 else j - d.x) = j - d.x := by
      split_ifs with h1
      · omega
      · rfl
    rw [e1, e2]
  · have hm' := hm
    simp only [Rect.mem, Dest.rectOf] at hm'
    have hcond2 : ¬ (inSlice d.y (d.y + s.height) img.H i ∧
        inSlice d.x (d.x + s.width) img.W j) := by
      unfold inSlice; omega
    rw [if_neg hcond2, if_neg hm]

/-- A pixel of the source rectangle never lies in the destination rectangle
when the two rectangles do not overlap. -/
theorem not_mem_dest_of_not_overlaps (d : Dest) (s : Rect)
    (h : ¬ overlaps d s) (i j : Nat) (hs : s.mem i j) :
    ¬ (d.rectOf s).mem i j := by
  unfold overlaps at h
  unfold Rect.mem Dest.rectOf at *
  simp only at *
  omega

/-- Modelled from the spec: "all spatial edits apply identically,
per-frame, when a frame axis is present" — the Fill transform applied
independently to each of the F frame slices of a multi-frame buffer. -/
def fill_image_per_frame_spec (img : Img4) (rect : Rect) (c : Color) :
    Img4 :=
  { img with
    pix := fun f i j ch => (fill3 ⟨img.H, img.W, img.pix f⟩ rect c).pix i j ch }

/-- All-zero 2-frame 2×2 buffer exhibiting the multi-frame fill bug. -/
def c1buf : Img4 := ⟨2, 2, 2, fun _ _ _ _ => 0⟩

/-- Claim C1 is violated by the code: on the all-zero `[2,2,2,3]` buffer
with the in-bounds fill rule rectangle `(0,0,1,1)`, color `(5,6,7)`,
`fill_image`'s slice assignment (line 218) addresses the frame and row axes
instead of each frame's rows and columns: frame 1 keeps sample 0 at pixel
`(0,0)` where the per-frame fill of the spec writes 5, and frame 0 gets 5
at pixel `(0,1)` — outside the rectangle — which the per-frame fill leaves
at 0. -/
theorem fill_image_multiframe_bug :
    (0 + 1 ≤ 2 ∧ 0 + 1 ≤ 2) ∧
    (fill4 c1buf ⟨0, 0, 1, 1⟩ ⟨5, 6, 7⟩).pix 1 0 0 0 = 0 ∧
    (fill_image_per_frame_spec c1buf ⟨0, 0, 1, 1⟩ ⟨5, 6, 7⟩).pix 1 0 0 0 = 5 ∧
    (fill4 c1buf ⟨0, 0, 1, 1⟩ ⟨5, 6, 7⟩).pix 0 0 1 0 = 5 ∧
    (fill_image_per_frame_spec c1buf ⟨0, 0, 1, 1⟩ ⟨5, 6, 7⟩).pix 0 0 1 0 = 0 := by
  decide

/-- The rectangle as numpy slicing actually addresses it on a `Wd`-wide,
`Ht`-high buffer: both extents silently clamped to the bounds. -/
def Rect.clampTo (r : Rect) (Wd Ht : Nat) : Rect :=
  ⟨min r.x Wd, min r.y Ht,
    min (r.x + r.width) Wd - min r.x Wd,
    min (r.y + r.height) Ht - min r.y Ht⟩

/-- All-zero 1×2 single-frame buffer for the out-of-bounds fill
counterexample. -/
def c2buf : Img3 := ⟨1, 2, fun _ _ _ => 0⟩

/-- Counterexample to claim C2 as stated: `fill_image` with rectangle
`(1,0,5,1)` on a `[1,2,3]` buffer (`x + width = 6 > 2`) raises nothing:
the slice assignment is total, silently clamps the rectangle to the
buffer, writes the clamped region (pixel `(0,1)` becomes 9) and leaves the
rest unchanged (pixel `(0,0)` stays 0) — no out-of-bounds condition is
propagated for Fill. -/
theorem fill_out_of_bounds_clamps_cex :
    (1 + 5 > 2) ∧
    (fill3 c2buf ⟨1, 0, 5, 1⟩ ⟨9, 8, 7⟩).pix 0 1 0 = 9 ∧
    (fill3 c2buf ⟨1, 0, 5, 1⟩ ⟨9, 8, 7⟩).pix 0 0 0 = 0 := by
  decide

/-- Claim C2 (amended): an out-of-bounds Fill rectangle raises no error —
numpy slicing silently clamps it to the buffer — while Transfer raises a
propagated broadcast error when the clamped source and destination shapes
disagree; in particular, on every multi-frame buffer of height 65 and
width 300, Transfer with source `(950,0,150,65)` and destination `(10,0)`
raises (the clamped source is 0 wide, the destination 150 wide), aborting
the batch. -/
theorem transfer_oob_errors_fill_clamps :
    (∀ (F : Nat) (p : Nat → Nat → Nat → Fin 3 → Nat),
        transfer4 ⟨F, 65, 300, p⟩ ⟨10, 0⟩ ⟨950, 0, 150, 65⟩ = none) ∧
    (∀ (im : Img3) (r : Rect) (c : Color),
        fill3 im r c = fill3 im (r.clampTo im.W im.H) c) := by
  constructor
  · intro F p
    rw [transfer4, if_neg]
    dsimp only
    decide
  · intro im r c
    unfold fill3 Rect.clampTo
    refine Img3.ext rfl rfl ?_
    funext i j ch
    dsimp only
    have hiff : (inSlice r.y (r.y + r.height) im.H i ∧
          inSlice r.x (r.x + r.width) im.W j) ↔
        (inSlice (min r.y im.H)
            (min r.y im.H + (min (r.y + r.height) im.H - min r.y im.H))
            im.H i ∧
          inSlice (min r.x im.W)
            (min r.x im.W + (min (r.x + r.width) im.W - min r.x im.W))
            im.W j) := by
      unfold inSlice
      omega
    exact if_congr hiff rfl rfl

/-- Claim C3: for in-bounds, equal-size source and destination rectangles
that overlap, the transfer writes into the destination the original
pre-transfer content of the source block (snapshot-then-write), on both
buffer shapes. -/
theorem transfer_overlap_snapshot :
    (∀ (img : Img3) (d : Dest) (s : Rect),
        s.x + s.width ≤ img.W → s.y + s.height ≤ img.H →
        d.x + s.width ≤ img.W → d.y + s.height ≤ img.H →
        overlaps d s →
        ∃ out, transfer3 img d s = some out ∧
          ∀ (i j : Nat) (ch : Fin 3), (d.rectOf s).mem i j →
            out.pix i j ch =
              img.pix (s.y + (i - d.y)) (s.x + (j - d.x)) ch) ∧
    (∀ (img : Img4) (d : Dest) (s : Rect),
        s.x + s.width ≤ img.W → s.y + s.height ≤ img.H →
        d.x + s.width ≤ img.W → d.y + s.height ≤ img.H →
        overlaps d s →
        ∃ out, transfer4 img d s = some out ∧
          ∀ (f i j : Nat) (ch : Fin 3), (d.rectOf s).mem i j →
            out.pix f i j ch =
              img.pix f (s.y + (i - d.y)) (s.x + (j - d.x)) ch) := by
  constructor
  · intro img d s hsx hsy hdx hdy _hov
    refine ⟨_, transfer3_in_bounds_eq img d s hsx hsy hdx hdy, ?_⟩
    intro i j ch hm
    dsimp only
    rw [if_pos hm]
  · intro img d s hsx hsy hdx hdy _hov
    refine ⟨_, transfer4_in_bounds_eq img d s hsx hsy hdx hdy, ?_⟩
    intro f i j ch hm
    dsimp only
    rw [if_pos hm]

/-- Concrete 4×4 single-frame buffer for transfer witnesses. -/
def w3img : Img3 := ⟨4, 4, fun i j ch => 16 * i + 4 * j + ch.val⟩

/-- Concrete 2-frame 4×4 buffer for transfer witnesses. -/
def w3vid : Img4 := ⟨2, 4, 4, fun f i j ch => 64 * f + 16 * i + 4 * j + ch.val⟩

/-- Witness for `transfer_overlap_snapshot`: source `(0,0,2,2)`,
destination `(1,1)` — the rectangles overlap. -/
theorem transfer_overlap_snapshot_witness :
    ((0 + 2 ≤ 4 ∧ 1 + 2 ≤ 4 ∧ overlaps ⟨1, 1⟩ ⟨0, 0, 2, 2⟩) ∧
      ∃ out, transfer3 w3img ⟨1, 1⟩ ⟨0, 0, 2, 2⟩ = some out ∧
        ∀ (i j : Nat) (ch : Fin 3),
          (Dest.rectOf ⟨1, 1⟩ ⟨0, 0, 2, 2⟩).mem i j →
            out.pix i j ch = w3img.pix (0 + (i - 1)) (0 + (j - 1)) ch) ∧
    (∃ out, transfer4 w3vid ⟨1, 1⟩ ⟨0, 0, 2, 2⟩ = some out ∧
      ∀ (f i j : Nat) (ch : Fin 3),
        (Dest.rectOf ⟨1, 1⟩ ⟨0, 0, 2, 2⟩).mem i j →
          out.pix f i j ch = w3vid.pix f (0 + (i - 1)) (0 + (j - 1)) ch) :=
  ⟨⟨⟨by decide, by decide, by decide⟩,
      transfer_overlap_snapshot.1 w3img ⟨1, 1⟩ ⟨0, 0, 2, 2⟩
        (by decide) (by decide) (by decide) (by decide) (by decide)⟩,
    transfer_overlap_snapshot.2 w3vid ⟨1, 1⟩ ⟨0, 0, 2, 2⟩
      (by decide) (by decide) (by decide) (by decide) (by decide)⟩

/-- Claim C5: for in-bounds, equal-size, non-overlapping source and
destination rectangles, the transfer copies the source block to the
destination block, leaves the source block unchanged, and leaves every
pixel outside both blocks unchanged, on both buffer shapes. -/
theorem transfer_nonoverlap_exact :
    (∀ (img : Img3) (d : Dest) (s : Rect),
        s.x + s.width ≤ img.W → s.y + s.height ≤ img.H →
        d.x + s.width ≤ img.W → d.y + s.height ≤ img.H →
        ¬ overlaps d s →
        ∃ out, transfer3 img d s = some out ∧
          (∀ (i j : Nat) (ch : Fin 3), (d.rectOf s).mem i j →
            out.pix i j ch =
              img.pix (s.y + (i - d.y)) (s.x + (j - d.x)) ch) ∧
          (∀ (i j : Nat) (ch : Fin 3), s.mem i j →
            out.pix i j ch = img.pix i j ch) ∧
          (∀ (i j : Nat) (ch : Fin 3), ¬ (d.rectOf s).mem i j →
            ¬ s.mem i j → out.pix i j ch = img.pix i j ch)) ∧
    (∀ (img : Img4) (d : Dest) (s : Rect),
        s.x + s.width ≤ img.W → s.y + s.height ≤ img.H →
        d.x + s.width ≤ img.W → d.y + s.height ≤ img.H →
        ¬ overlaps d s →
        ∃ out, transfer4 img d s = some out ∧
          (∀ (f i j : Nat) (ch : Fin 3), (d.rectOf s).mem i j →
            out.pix f i j ch =
              img.pix f (s.y + (i - d.y)) (s.x + (j - d.x)) ch) ∧
          (∀ (f i j : Nat) (ch : Fin 3), s.mem i j →
            out.pix f i j ch = img.pix f i j ch) ∧
          (∀ (f i j : Nat) (ch : Fin 3), ¬ (d.rectOf s).mem i j →
            ¬ s.mem i j → out.pix f i j ch = img.pix f i j ch)) := by
  constructor
  · intro img d s hsx hsy hdx hdy hov
    refine ⟨_, transfer3_in_bounds_eq img d s hsx hsy hdx hdy, ?_, ?_, ?_⟩
    · intro i j ch hm
      dsimp only
      rw [if_pos hm]
    · intro i j ch hs
      dsimp only
      rw [if_neg (not_mem_dest_of_not_overlaps d s hov i j hs)]
    · intro i j ch hd _hs
      dsimp only
      rw [if_neg hd]
  · intro img d s hsx hsy hdx hdy hov
    refine ⟨_, transfer4_in_bounds_eq img d s hsx hsy hdx hdy, ?_, ?_, ?_⟩
    · intro f i j ch hm
      dsimp only
      rw [if_pos hm]
    · intro f i j ch hs
      dsimp only
      rw [if_neg (not_mem_dest_of_not_overlaps d s hov i j hs)]
    · intro f i j ch hd _hs
      dsimp only
      rw [if_neg hd]

/-- Witness for `transfer_nonoverlap_exact`: source `(0,0,2,2)`,
destination `(2,2)` — disjoint rectangles on the same 4×4 buffers. -/
theorem transfer_nonoverlap_exact_witness :
    ((0 + 2 ≤ 4 ∧ 2 + 2 ≤ 4 ∧ ¬ overlaps ⟨2, 2⟩ ⟨0, 0, 2, 2⟩) ∧
      ∃ out, transfer3 w3img ⟨2, 2⟩ ⟨0, 0, 2, 2⟩ = some out ∧
        (∀ (i j : Nat) (ch : Fin 3),
          (Dest.rectOf ⟨2, 2⟩ ⟨0, 0, 2, 2⟩).mem i j →
            out.pix i j ch = w3img.pix (0 + (i - 2)) (0 + (j - 2)) ch) ∧
        (∀ (i j : Nat) (ch : Fin 3), Rect.mem ⟨0, 0, 2, 2⟩ i j →
          out.pix i j ch = w3img.pix i j ch) ∧
        (∀ (i j : Nat) (ch : Fin 3),
          ¬ (Dest.rectOf ⟨2, 2⟩ ⟨0, 0, 2, 2⟩).mem i j →
            ¬ Rect.mem ⟨0, 0, 2, 2⟩ i j →
              out.pix i j ch = w3img.pix i j ch)) ∧
    (∃ out, transfer4 w3vid ⟨2, 2⟩ ⟨0, 0, 2, 2⟩ = some out ∧
      (∀ (f i j : Nat) (ch : Fin 3),
        (Dest.rectOf ⟨2, 2⟩ ⟨0, 0, 2, 2⟩).mem i j →
          out.pix f i j ch = w3vid.pix f (0 + (i - 2)) (0 + (j - 2)) ch) ∧
      (∀ (f i j : Nat) (ch : Fin 3), Rect.mem ⟨0, 0, 2, 2⟩ i j →
        out.pix f i j ch = w3vid.pix f i j ch) ∧
      (∀ (f i j : Nat) (ch : Fin 3),
        ¬ (Dest.rectOf ⟨2, 2⟩ ⟨0, 0, 2, 2⟩).mem i j →
          ¬ Rect.mem ⟨0, 0, 2, 2⟩ i j →
            out.pix f i j ch = w3vid.pix f i j ch)) :=
  ⟨⟨⟨by decide, by decide, by decide⟩,
      transfer_nonoverlap_exact.1 w3img ⟨2, 2⟩ ⟨0, 0, 2, 2⟩
        (by decide) (by decide) (by decide) (by decide) (by decide)⟩,
    transfer_nonoverlap_exact.2 w3vid ⟨2, 2⟩ ⟨0, 0, 2, 2⟩
      (by decide) (by decide) (by decide) (by decide) (by decide)⟩

/-- Claim C4: for every single-frame 3-channel buffer, in-bounds rectangle
R and color C, `fill_image` sets every pixel inside R to C and leaves every
pixel outside R byte-identical to its pre-fill value. -/
theorem fill3_in_bounds_exact (img : Img3) (r : Rect) (c : Color)
    (hw : r.x + r.width ≤ img.W) (hh : r.y + r.height ≤ img.H)
    (i j : Nat) (ch : Fin 3) :
    (r.mem i j → (fill3 img r c).pix i j ch = c.chan ch) ∧
      (i < img.H → j < img.W → ¬ r.mem i j →
        (fill3 img r c).pix i j ch = img.pix i j ch) := by
  constructor
  · intro hm
    obtain ⟨h1, h2, h3, h4⟩ := hm
    have hc : inSlice r.y (r.y + r.height) img.H i ∧
        inSlice r.x (r.x + r.width) img.W j := by
      refine ⟨⟨h1, h2, ?_⟩, h3, h4, ?_⟩ <;> omega
    simp [fill3, hc]
  · intro hi hj hm
    have hc : ¬ (inSlice r.y (r.y + r.height) img.H i ∧
        inSlice r.x (r.x + r.width) img.W j) := by
      unfold Rect.mem at hm
      unfold inSlice
      omega
    simp [fill3, hc]

/-- Concrete buffer of the spec's fill scenario: shape `[65, 300, 3]`. -/
def w4img : Img3 := ⟨65, 300, fun i j ch => (i + 2 * j + ch.val) % 256⟩

/-- Witness for `fill3_in_bounds_exact`: the spec's scenario — buffer
`[65, 300, 3]`, rectangle `(10, 0, 150, 65)`, color `(23, 34, 61)`. -/
theorem fill3_in_bounds_exact_witness :
    (10 + 150 ≤ 300 ∧ 0 + 65 ≤ 65) ∧
      ∀ (i j : Nat) (ch : Fin 3),
        (Rect.mem ⟨10, 0, 150, 65⟩ i j →
          (fill3 w4img ⟨10, 0, 150, 65⟩ ⟨23, 34, 61⟩).pix i j ch =
            Color.chan ⟨23, 34, 61⟩ ch) ∧
        (i < w4img.H → j < w4img.W → ¬ Rect.mem ⟨10, 0, 150, 65⟩ i j →
          (fill3 w4img ⟨10, 0, 150, 65⟩ ⟨23, 34, 61⟩).pix i j ch =
            w4img.pix i j ch) :=
  ⟨⟨by decide, by decide⟩, fun i j ch =>
    fill3_in_bounds_exact w4img ⟨10, 0, 150, 65⟩ ⟨23, 34, 61⟩
      (by decide) (by decide) i j ch⟩

/-- Claim C9: applying the same in-bounds fill twice yields the buffer
obtained by applying it once (on either buffer shape). -/
theorem fill_image_idempotent (a : PixArray) (r : Rect) (c : Color)
    (_h : fillInBounds a r) :
    fill_image (fill_image a r c) r c = fill_image a r c := by
  cases a with
  | single i =>
    simp only [fill_image]
    congr 1
    unfold fill3
    refine Img3.ext rfl rfl ?_
    funext ii jj ch
    by_cases hc : inSlice r.y (r.y + r.height) i.H ii ∧
        inSlice r.x (r.x + r.width) i.W jj
    · simp [hc]
    · simp [hc]
  | multi i =>
    simp only [fill_image]
    congr 1
    unfold fill4
    refine Img4.ext rfl rfl rfl ?_
    funext ff ii jj ch
    by_cases hc : inSlice r.y (r.y + r.height) i.F ff ∧
        inSlice r.x (r.x + r.width) i.H ii
    · simp [hc]
    · simp [hc]

/-- The configuration produced by the argparse defaults plus `-i` (input
directory given, no output directory, no flag enabled). -/
def cfg0 : Config :=
  ⟨true, false, false, false, false, false,
    false, ⟨950, 0, 150, 65⟩, ⟨10, 0⟩,
    false, ⟨780, 35, 310, 30⟩, ⟨150, 35⟩,
    false, ⟨10, 0, 150, 65⟩, ⟨23, 34, 61⟩,
    false, ⟨150, 30, 300, 35⟩, ⟨23, 34, 61⟩⟩

/-- Claim C6: a file whose decoding yields no pixel data is skipped — no
transform, no display, no write for it — and the batch continues exactly
as if the file were absent. -/
theorem no_pixel_data_skips_file (cfg : Config) (f : DFile)
    (rest : List DFile) (h : f.pixels = none) :
    processFiles cfg (f :: rest) = processFiles cfg rest := by
  simp only [processFiles, h]

/-- A file with no pixel data, for the skip witness. -/
def w6file : DFile := ⟨7, none, []⟩

/-- Witness for `no_pixel_data_skips_file` on the default configuration. -/
theorem no_pixel_data_skips_file_witness :
    w6file.pixels = none ∧
      processFiles cfg0 [w6file] = processFiles cfg0 [] :=
  ⟨rfl, no_pixel_data_skips_file cfg0 w6file [] rfl⟩

/-- When a prefix of the batch completes normally (`return` not reached),
processing the whole list is the prefix's writes followed by whatever the
remaining files produce. -/
theorem processFiles_append (cfg : Config) (rest : List DFile) :
    ∀ (pre : List DFile) (ws : List WriteEvent),
      processFiles cfg pre = (ws, some true) →
      processFiles cfg (pre ++ rest) =
        (ws ++ (processFiles cfg rest).1, (processFiles cfg rest).2) := by
  intro pre
  induction pre with
  | nil =>
    intro ws h
    simp only [processFiles] at h
    injection h with h1 h2
    subst h1
    simp only [List.nil_append]
  | cons f pre ih =>
    intro ws h
    match hp : f.pixels with
    | none =>
      simp only [processFiles, hp] at h ⊢
      exact ih ws h
    | some img =>
      match ha : applyPlan cfg img with
      | none =>
        simp only [processFiles, hp, ha] at h
        injection h with h1 h2
        cases h2
      | some img2 =>
        by_cases hq : (cfg.showImages : Prop) ∧ (isQuit f.userInput : Prop)
        · simp only [processFiles, hp, ha, if_pos hq] at h
          injection h with h1 h2
          cases h2
        · rcases hr : processFiles cfg pre with ⟨ws', b'⟩
          simp only [processFiles, hp, ha, if_neg hq, hr] at h
          injection h with h1 h2
          subst h2
          subst h1
          simp only [List.cons_append, processFiles, hp, ha, if_neg hq,
            List.append_eq, ih ws' hr, List.append_assoc]

/-- Claim C7: if every file before `f` processes normally, `f` has pixel
data, its transforms succeed, display is on, and the user's reply at `f`
strips and lowercases to a quit token, then the batch stops at `f` with a
failure status: exactly the writes of the earlier files happen, nothing is
written for `f` or any later file. -/
theorem quit_token_aborts (cfg : Config) (pre : List DFile) (f : DFile)
    (rest : List DFile) (ws : List WriteEvent) (img img2 : PixArray)
    (hpre : processFiles cfg pre = (ws, some true))
    (hshow : cfg.showImages = true)
    (hpix : f.pixels = some img)
    (hplan : applyPlan cfg img = some img2)
    (hq : isQuit f.userInput = true) :
    processFiles cfg (pre ++ f :: rest) = (ws, some false) := by
  have hstep : processFiles cfg (f :: rest) = ([], some false) := by
    simp [processFiles, hpix, hplan, hshow, hq]
  rw [processFiles_append cfg (f :: rest) pre ws hpre, hstep]
  simp

/-- Shown single-frame image for the quit witness. -/
def w7pix : PixArray := .single ⟨2, 2, fun i j ch => i + j + ch.val⟩

/-- File 1 of the quit witness: displayed, the user presses Enter. -/
def w7f1 : DFile := ⟨1, some w7pix, []⟩

/-- File 2 of the quit witness: displayed, the user types `Q`. -/
def w7f2 : DFile := ⟨2, some w7pix, ['Q']⟩

/-- File 3 of the quit witness: never reached. -/
def w7f3 : DFile := ⟨3, some w7pix, []⟩

/-- Configuration of the quit witness: input and output directories set,
display on, no transform enabled. -/
def w7cfg : Config :=
  ⟨true, true, true, false, false, false,
    false, ⟨950, 0, 150, 65⟩, ⟨10, 0⟩,
    false, ⟨780, 35, 310, 30⟩, ⟨150, 35⟩,
    false, ⟨10, 0, 150, 65⟩, ⟨23, 34, 61⟩,
    false, ⟨150, 30, 300, 35⟩, ⟨23, 34, 61⟩⟩

/-- Witness for `quit_token_aborts`: the spec's scenario — the quit token
`Q` on file 2 leaves file 1's output written, files 2 and 3 unwritten and
the run failed. -/
theorem quit_token_aborts_witness :
    (processFiles w7cfg [w7f1] = ([WriteEvent.dicomWrite 1], some true) ∧
      w7cfg.showImages = true ∧ w7f2.pixels = some w7pix ∧
      applyPlan w7cfg w7pix = some w7pix ∧ isQuit w7f2.userInput = true) ∧
    processFiles w7cfg ([w7f1] ++ w7f2 :: [w7f3]) =
      ([WriteEvent.dicomWrite 1], some false) :=
  ⟨⟨rfl, rfl, rfl, rfl, rfl⟩,
    quit_token_aborts w7cfg [w7f1] w7f2 [w7f3] [WriteEvent.dicomWrite 1]
      w7pix w7pix rfl rfl rfl rfl rfl⟩

/-- With no output directory every file still goes through the loop
(transforms and display included), yet no write happens and the loop falls
through to `return True` — provided no transform errors and no quit token
is entered. -/
theorem processFiles_no_output (cfg : Config) (hout : cfg.output = false) :
    ∀ files : List DFile,
      (∀ f ∈ files, ∀ img, f.pixels = some img →
        (applyPlan cfg img).isSome) →
      (∀ f ∈ files, isQuit f.userInput = false) →
      processFiles cfg files = ([], some true) := by
  intro files
  induction files with
  | nil =>
    intro _ _
    rfl
  | cons f rest ih =>
    intro hplan hnq
    match hp : f.pixels with
    | none =>
      simp only [processFiles, hp]
      exact ih (fun g hg => hplan g (List.mem_cons_of_mem f hg))
        (fun g hg => hnq g (List.mem_cons_of_mem f hg))
    | some img =>
      have hs := hplan f (List.mem_cons_self f rest) img hp
      match ha : applyPlan cfg img with
      | none =>
        rw [ha] at hs
        cases hs
      | some img2 =>
        have hqf := hnq f (List.mem_cons_self f rest)
        have hq : ¬ ((cfg.showImages : Prop) ∧ (isQuit f.userInput : Prop)) := by
          simp [hqf]
        simp only [processFiles, hp, ha, if_neg hq,
          ih (fun g hg => hplan g (List.mem_cons_of_mem f hg))
            (fun g hg => hnq g (List.mem_cons_of_mem f hg))]
        simp [fileWrites, hout]

/-- Claim C8: a run with an input directory but no output directory
processes every file (transforms and display as configured), writes and
exports nothing, and completes with a success status — provided the user
never enters a quit token and no transform errors. -/
theorem no_output_still_processes (cfg : Config) (files : List DFile)
    (hin : cfg.input = true) (hout : cfg.output = false)
    (hplan : ∀ f ∈ files, ∀ img, f.pixels = some img →
      (applyPlan cfg img).isSome)
    (hnq : ∀ f ∈ files, isQuit f.userInput = false) :
    main cfg files = ([], some true) := by
  have h := processFiles_no_output cfg hout files hplan hnq
  simp [main, hin, h]

/-- Configuration of the no-output witness: input directory set, no output
directory, display on, both fill rules enabled. -/
def w8cfg : Config :=
  ⟨true, false, true, false, false, false,
    false, ⟨950, 0, 150, 65⟩, ⟨10, 0⟩,
    false, ⟨780, 35, 310, 30⟩, ⟨150, 35⟩,
    true, ⟨10, 0, 150, 65⟩, ⟨23, 34, 61⟩,
    true, ⟨150, 30, 300, 35⟩, ⟨23, 34, 61⟩⟩

/-- Files of the no-output witness. -/
def w8f1 : DFile := ⟨1, some w7pix, []⟩

/-- Second file of the no-output witness: one with no pixel data. -/
def w8f2 : DFile := ⟨2, none, ['y']⟩

/-- Witness for `no_output_still_processes`. -/
theorem no_output_still_processes_witness :
    (w8cfg.input = true ∧ w8cfg.output = false) ∧
      main w8cfg [w8f1, w8f2] = ([], some true) :=
  ⟨⟨rfl, rfl⟩,
    no_output_still_processes w8cfg [w8f1, w8f2] rfl rfl
      (by
        intro f hf img hp
        rcases hf with _ | ⟨_, hf⟩
        · rw [show w8f1.pixels = some w7pix from rfl] at hp
          injection hp with h
          subst h
          rfl
        · rcases hf with _ | ⟨_, hf⟩
          · rw [show w8f2.pixels = none from rfl] at hp
            cases hp
          · cases hf)
      (by
        intro f hf
        rcases hf with _ | ⟨_, hf⟩
        · rfl
        · rcases hf with _ | ⟨_, hf⟩
          · rfl
          · cases hf)⟩

/-- Claim C10: the per-file pipeline applies exactly the enabled rules, in
the fixed order transfer, transfer2, fill, fill2 — the fold of the single
rules over the filtered fixed order — regardless of anything but the
configuration record (command-line flag order cannot influence it). -/
theorem plan_applies_rules_in_fixed_order (cfg : Config) (img : PixArray) :
    applyPlan cfg img =
      List.foldlM (applyRule cfg) img
        (ruleOrder.filter (ruleEnabled cfg)) := by
  rcases cfg with ⟨i, o, sh, jp, nf, l, t, u, d, t2, u2, d2, fl, r, c, f2, r2, c2⟩
  cases t <;> cases t2 <;> cases fl <;> cases f2 <;> rfl

/-- Concrete single-frame buffer for the idempotence witness. -/
def w9a : PixArray := .single ⟨65, 300, fun i j ch => (3 * i + j + ch.val) % 256⟩

/-- Witness for `fill_image_idempotent` at the default fill rule
`(10, 0, 150, 65)`, color `(23, 34, 61)`. -/
theorem fill_image_idempotent_witness :
    fillInBounds w9a ⟨10, 0, 150, 65⟩ ∧
      fill_image (fill_image w9a ⟨10, 0, 150, 65⟩ ⟨23, 34, 61⟩)
          ⟨10, 0, 150, 65⟩ ⟨23, 34, 61⟩ =
        fill_image w9a ⟨10, 0, 150, 65⟩ ⟨23, 34, 61⟩ :=
  ⟨⟨by decide, by decide⟩,
    fill_image_idempotent w9a ⟨10, 0, 150, 65⟩ ⟨23, 34, 61⟩
      ⟨by decide, by decide⟩⟩

end DicomMod
